import Mathlib

/-!
Shallow embedding of the provider-routing gateway of the emotional_chatbot
repository: the LLM router (`backend/modules/llm/llm_router.py`), the
provider adapters (`backend/modules/llm/providers/*.py`) and the tool-call
normalisation inside
`backend/modules/llm/core/llm_with_plugins.py::_generate_response_with_plugins`.

Network I/O is modelled by data: each provider carries the outcome its
`is_available()` probe and its `chat_completion_sync()` call would produce
(an HTTP status code, a network failure, a response, or a raised exception),
and the embedded router is a pure function of that data.  Python object
identity of provider instances is modelled by a numeric `pid` field
(distinct instances have distinct pids).  Calls to `is_available()` and to a
provider's completion method are recorded as an explicit event trace so that
statements about what was probed or attempted can be made.
-/

namespace EmoBot

/-- Message shape of `base_provider.LLMMessage`: a role string and a content
string. -/
structure LLMMessage where
  role : String
  content : String
deriving Repr, DecidableEq

/-- Token usage dictionary carried by a response. -/
structure LLMUsage where
  prompt_tokens : Nat
  completion_tokens : Nat
  total_tokens : Nat
deriving Repr, DecidableEq

/-- Response shape of `base_provider.LLMResponse`. -/
structure LLMResponse where
  content : String
  model : String
  usage : Option LLMUsage
  finish_reason : Option String
deriving Repr, DecidableEq

/-- Outcome of a provider's `is_available()` probe: either it returns a
boolean or it raises (every raise is caught by the router and treated the
same way, so the exception payload is irrelevant). -/
inductive AvailResult where
  | raises
  | ok (b : Bool)
deriving Repr, DecidableEq

/-- Outcome of a provider's `chat_completion_sync()` call: a response, or a
raised exception carrying an error message. -/
inductive CompResult where
  | raises (e : String)
  | ok (r : LLMResponse)
deriving Repr, DecidableEq

/-- A constructed provider instance as the router sees it: identity
(`pid` models Python object identity, `name` is `get_provider_name()`,
`model` the configured model), the configured `priority`, and the outcomes
its network-facing methods would produce. -/
structure Provider where
  pid : Nat
  name : String
  model : String
  priority : Nat
  availability : AvailResult
  completion : CompResult
deriving Repr, DecidableEq

/-- State of an `LLMRouter` instance: the priority-sorted provider list
`self.providers` and `self.current_provider`. -/
structure RouterState where
  providers : List Provider
  current : Option Provider
deriving Repr, DecidableEq

/-! ### Provider availability probes

`ClaudeProvider.is_available`, `SiliconFlowProvider.is_available` and
`OllamaProvider.is_available` each perform one HTTP request inside a
`try`/`except` returning `False` on any exception.  The probe outcome is
modelled as either an HTTP response with a status code or a network-level
failure (exception from `requests`, including timeout). -/

/-- Outcome of the single HTTP request a probe performs. -/
inductive ProbeOutcome where
  | status (code : Nat)
  | netFail
deriving Repr, DecidableEq

/-- Embedding of `ClaudeProvider.is_available`: it POSTs a minimal request
and returns `response.status_code in [200, 400]`; any exception yields
`False`. -/
def claude_is_available : ProbeOutcome → Bool
  | .status code => code == 200 || code == 400
  | .netFail => false

/-- Embedding of `SiliconFlowProvider.is_available`: it POSTs a minimal
request and returns `response.status_code in [200, 400]`; any exception
yields `False`. -/
def siliconflow_is_available : ProbeOutcome → Bool
  | .status code => code == 200 || code == 400
  | .netFail => false

/-- Embedding of `OllamaProvider.is_available`: it GETs `/api/tags` and
returns `response.status_code == 200`; any exception yields `False`. -/
def ollama_is_available : ProbeOutcome → Bool
  | .status code => code == 200
  | .netFail => false

/-! ### Claude message formatting (`ClaudeProvider.chat_completion_sync`) -/

/-- Embedding of the message-splitting loop of
`ClaudeProvider.chat_completion_sync`: iterate over the messages, appending
each system message's content plus a newline to the accumulated
`system_message` string and every other message to `api_messages`,
preserving order.  A `foldl` mirrors the Python `for` loop with its two
accumulators. -/
def claude_collect (msgs : List LLMMessage) : List LLMMessage × String :=
  msgs.foldl
    (fun acc m =>
      if m.role == "system" then (acc.1, acc.2 ++ m.content ++ "\n")
      else (acc.1 ++ [m], acc.2))
    ([], "")

/-- The request body built by `ClaudeProvider.chat_completion_sync`: the
model, the non-system messages, and — only when the accumulated system text
is non-blank — a single `system` field holding the stripped concatenation. -/
structure ClaudeRequest where
  model : String
  messages : List LLMMessage
  system : Option String
deriving Repr, DecidableEq

/-- Embedding of the request construction in
`ClaudeProvider.chat_completion_sync` (the `data` dictionary, restricted to
the fields the message-handling contract is about). -/
def claude_build_request (model : String) (msgs : List LLMMessage) : ClaudeRequest :=
  let split := claude_collect msgs
  { model := model
    messages := split.1
    system := if split.2.trim == "" then none else some split.2.trim }

/-! ### Router initialization (`LLMRouter.__init__`) -/

/-- One entry of the router's configuration dictionary together with the
provider it would build: `enabled`, `api_key` and `priority` come from the
config record; `requires_api_key` says whether the provider class's
constructor raises `ValueError` when `api_key` is missing (true for the
remote providers such as `ClaudeProvider`, false for `OllamaProvider`);
`pid`, `name`, `model`, `availability` and `completion` describe the
instance the constructor would return. -/
structure ProviderSpec where
  pid : Nat
  name : String
  model : String
  enabled : Bool
  requires_api_key : Bool
  api_key : Option String
  priority : Nat
  availability : AvailResult
  completion : CompResult
deriving Repr, DecidableEq

/-- Embedding of a provider class constructor (e.g. `ClaudeProvider.__init__`):
it raises `ValueError(name + " API key is required")` when the class requires
an API key and the config supplies none, and otherwise returns the instance. -/
def init_provider (s : ProviderSpec) : Except String Provider :=
  if s.requires_api_key && s.api_key.isNone then
    .error (s.name ++ " API key is required")
  else
    .ok ⟨s.pid, s.name, s.model, s.priority, s.availability, s.completion⟩

/-- Comparison used to sort providers: ascending configured priority
(`provider_configs.sort(key=lambda x: x[0])`). -/
def priorityLE (a b : Provider) : Prop := a.priority ≤ b.priority

instance : DecidableRel priorityLE := fun a b => Nat.decLe a.priority b.priority

instance : IsTotal Provider priorityLE := ⟨fun a b => Nat.le_total a.priority b.priority⟩

instance : IsTrans Provider priorityLE := ⟨fun _ _ _ h1 h2 => Nat.le_trans h1 h2⟩

/-- Embedding of `LLMRouter._initialize_providers`: skip entries whose config
is not enabled, construct each remaining provider — an exception from the
constructor is caught (logged) and the provider is skipped — and finally sort
the survivors by ascending priority (a stable sort, as `list.sort` is). -/
def initialize_providers (specs : List ProviderSpec) : List Provider :=
  let built := specs.filterMap (fun s =>
    if !s.enabled then none
    else
      match init_provider s with
      | .ok p => some p
      | .error _ => none)
  List.insertionSort priorityLE built

/-- Embedding of `LLMRouter._select_provider` returning both the chosen
provider and the trace of providers probed with `is_available()` (their
pids, in call order): walk the providers in list order, probing each; the
first probe returning `True` is selected and the walk stops; a probe that
returns `False` or raises moves on to the next provider; if the walk ends
nothing is selected. -/
def select_provider_trace : List Provider → Option Provider × List Nat
  | [] => (none, [])
  | p :: rest =>
    match p.availability with
    | .ok true => (some p, [p.pid])
    | _ =>
      let r := select_provider_trace rest
      (r.1, p.pid :: r.2)

/-- Embedding of `LLMRouter.__init__` (with a fixed configuration): build and
sort the enabled providers, then select the first available one.  The
constructor never raises — every exception a provider constructor or probe
may raise is caught inside `_initialize_providers` / `_select_provider` — so
this is a total function.  Returns the resulting state and the pids probed
during selection. -/
def router_init (specs : List ProviderSpec) : RouterState × List Nat :=
  let ps := initialize_providers specs
  let sel := select_provider_trace ps
  ({ providers := ps, current := sel.1 }, sel.2)

/-! ### `LLMRouter.chat_completion` with failover -/

/-- One observable action of a `chat_completion` call: an `is_available()`
probe of the provider with the given pid, or a completion attempt
(`chat_completion_sync` / `chat_completion`) on it. -/
inductive RouterEv where
  | probe (pid : Nat)
  | call (pid : Nat)
deriving Repr, DecidableEq

/-- Result of one `LLMRouter.chat_completion` call: a response; the
`Exception("没有可用的LLM提供商")` raised when no provider is selected; or
the final exception raised after failover is exhausted, carrying the list of
underlying provider errors that are interpolated into its message. -/
inductive CallOutcome where
  | success (resp : LLMResponse)
  | noProvider
  | allFailed (errors : List String)
deriving Repr, DecidableEq

/-- Embedding of the failover loop in `LLMRouter.chat_completion`: after the
current provider `cur` raised `e`, iterate `self.providers` in order,
skipping the provider equal (by identity) to `cur`; probe each with
`is_available()`; on the first probe returning `True`, attempt completion —
on success update `self.current_provider` to that provider and return its
response; a probe that raises or returns `False`, and a completion attempt
that raises, are caught and the loop moves on; when the loop ends, raise the
final exception whose message interpolates only `e`. -/
def failover_loop (cur : Provider) (e : String) (st : RouterState) :
    List Provider → CallOutcome × List RouterEv × RouterState
  | [] => (.allFailed [e], [], st)
  | p :: rest =>
    if p.pid = cur.pid then failover_loop cur e st rest
    else
      match p.availability with
      | .ok true =>
        match p.completion with
        | .ok resp =>
          (.success resp, [.probe p.pid, .call p.pid], { st with current := some p })
        | .raises _ =>
          let r := failover_loop cur e st rest
          (r.1, .probe p.pid :: .call p.pid :: r.2.1, r.2.2)
      | _ =>
        let r := failover_loop cur e st rest
        (r.1, .probe p.pid :: r.2.1, r.2.2)

/-- Embedding of `LLMRouter.chat_completion`: raise if no provider is
selected; otherwise attempt the current provider's completion directly (no
availability probe), returning its response on success with the state
unchanged; if it raises, run the failover loop over `self.providers`.
Returns the outcome, the event trace, and the state after the call. -/
def chat_completion (st : RouterState) : CallOutcome × List RouterEv × RouterState :=
  match st.current with
  | none => (.noProvider, [], st)
  | some cur =>
    match cur.completion with
    | .ok resp => (.success resp, [.call cur.pid], st)
    | .raises e =>
      let r := failover_loop cur e st st.providers
      (r.1, .call cur.pid :: r.2.1, r.2.2)

/-- The pids of the completion attempts in a trace, in order. -/
def callPids (evs : List RouterEv) : List Nat :=
  evs.filterMap (fun ev => match ev with | .call i => some i | .probe _ => none)

/-- The pids of the `is_available()` probes in a trace, in order. -/
def probePids (evs : List RouterEv) : List Nat :=
  evs.filterMap (fun ev => match ev with | .probe i => some i | .call _ => none)

/-! ### Tool-call normalisation
(`EmotionalChatEngineWithPlugins._generate_response_with_plugins`)

The assistant message returned by the backend either carries a `tool_calls`
list (each entry wrapping a `function` object with `name` and a JSON-encoded
`arguments` string, plus a call `id`), or a single top-level `function_call`
object with the same `name`/`arguments` fields, or no invocation at all.
`json.loads` is modelled as a parameter `loads`; a malformed arguments
string is one on which `loads` returns `none` (i.e. `json.loads` raises). -/

/-- Value of an `arguments` field: the usual JSON-encoded string, or already
a decoded dictionary (the code checks `isinstance(func_args_str, str)`). -/
inductive PyArgs where
  | str (s : String)
  | dict (m : List (String × String))
deriving Repr, DecidableEq

/-- The `function` object of an invocation: optional `name` and optional
`arguments` (absent keys are read with `.get`). -/
structure ToolFunction where
  fname : Option String
  arguments : Option PyArgs
deriving Repr, DecidableEq

/-- One entry of a `tool_calls` list: an optional call `id` and an optional
`function` object. -/
structure RawToolCall where
  id : Option String
  function : Option ToolFunction
deriving Repr, DecidableEq

/-- The assistant message fields the normaliser inspects: the `tool_calls`
key (absent, or present with a list) and the `function_call` key. -/
structure AssistantMessage where
  content : String
  tool_calls : Option (List RawToolCall)
  function_call : Option ToolFunction
deriving Repr, DecidableEq

/-- Embedding of the defensive arguments parsing: read the `arguments` field
with default `"{}"`; if it is a string, `json.loads` it inside
`try`/`except` with `except` yielding the empty dictionary `{}`; if it is
already a dictionary, use it as is.  Total: no exception escapes. -/
def parse_args (loads : String → Option (List (String × String)))
    (a : Option PyArgs) : List (String × String) :=
  match a.getD (.str "\x7b\x7d") with
  | .str s => (loads s).getD []
  | .dict m => m

/-- Embedding of the format detection: if the `tool_calls` key is present
and truthy (a non-empty list), decode its first entry's `function` object
(default `{}`); otherwise, if a `function_call` key is present, decode it;
otherwise there is no invocation.  Returns the decoded `name` and argument
dictionary. -/
def detect_tool_call (loads : String → Option (List (String × String)))
    (msg : AssistantMessage) :
    Option (Option String × List (String × String)) :=
  match msg.tool_calls with
  | some (tc :: _) =>
    let fc := tc.function.getD ⟨none, none⟩
    some (fc.fname, parse_args loads fc.arguments)
  | _ =>
    match msg.function_call with
    | some fc => some (fc.fname, parse_args loads fc.arguments)
    | none => none

/-- The tool-result follow-up message appended before the second backend
call: `{"role": "tool", "tool_call_id": ..., "name": ..., "content": ...}`
when the assistant message had a `tool_calls` key, otherwise
`{"role": "function", "name": ..., "content": ...}` (which has no
call-identifier key at all). -/
inductive FollowUpMsg where
  | toolMsg (tool_call_id : Option String) (fname : String) (content : String)
  | functionMsg (fname : String) (content : String)
deriving Repr, DecidableEq

/-- Embedding of the follow-up construction: the code branches on
`"tool_calls" in assistant_message` (key presence, regardless of the list
being empty) and re-reads `assistant_message["tool_calls"][0].get("id")`;
indexing `[0]` on an empty list raises `IndexError`, modelled as `.error`.
`fname` is the decoded (truthy) function name, `resultJson` the
`json.dumps` of the plugin result. -/
def build_followup (msg : AssistantMessage) (fname : String)
    (resultJson : String) : Except Unit FollowUpMsg :=
  match msg.tool_calls with
  | some tcs =>
    match tcs with
    | tc :: _ => .ok (.toolMsg tc.id fname resultJson)
    | [] => .error ()
  | none => .ok (.functionMsg fname resultJson)

/-! ### `LLMRouter.get_current_provider_info` -/

/-- The dictionary returned by `get_current_provider_info`: always a `name`
and an `available` flag, and a `model` key only when a provider is
selected. -/
structure ProviderInfo where
  name : String
  model : Option String
  available : Bool
deriving Repr, DecidableEq

/-- Embedding of `LLMRouter.get_current_provider_info`: with no current
provider it returns `{"name": "None", "available": False}`; otherwise the
current provider's name and model with `"available": True`.  It makes no
`is_available()` call. -/
def get_current_provider_info (st : RouterState) : ProviderInfo :=
  match st.current with
  | none => ⟨"None", none, false⟩
  | some p => ⟨p.name, some p.model, true⟩

/-! ### Concrete instances used by witnesses and counterexamples -/

/-- A concrete response used in demonstration scenarios. -/
def demoResp : LLMResponse := ⟨"hi", "m2", none, some "stop"⟩

/-- Demonstration provider: selected, its completion raises `"boom1"`. -/
def demoP1 : Provider := ⟨1, "P1", "m1", 1, .ok true, .raises "boom1"⟩

/-- Demonstration provider: available, its completion succeeds. -/
def demoP2 : Provider := ⟨2, "P2", "m2", 2, .ok true, .ok demoResp⟩

/-- Demonstration provider: available, its completion raises `"boom2"`. -/
def demoP2bad : Provider := ⟨2, "P2", "m2", 2, .ok true, .raises "boom2"⟩

/-- Router state whose current provider fails while a fallback succeeds. -/
def demoStOk : RouterState := ⟨[demoP1, demoP2], some demoP1⟩

/-- Router state in which every provider's completion raises. -/
def demoStBad : RouterState := ⟨[demoP1, demoP2bad], some demoP1⟩

/-- Router state with an available provider but nothing selected. -/
def demoStNone : RouterState := ⟨[demoP2], none⟩

/-- A `json.loads` model that fails on every input (every string is
malformed for it). -/
def demoBadLoads : String → Option (List (String × String)) := fun _ => none

/-- Shorthand for "the provider's `is_available()` probe returns `True`". -/
def is_avail (p : Provider) : Bool := p.availability == .ok true

/-- Demonstration config: enabled, keyed, priority 1, probe returns False. -/
def demoSpecA : ProviderSpec := ⟨1, "A", "mA", true, true, some "k", 1, .ok false, .raises "eA"⟩

/-- Demonstration config: enabled, keyed, priority 2, probe returns True. -/
def demoSpecB : ProviderSpec := ⟨2, "B", "mB", true, true, some "k", 2, .ok true, .ok demoResp⟩

/-- Demonstration config: enabled, keyed, priority 3, probe returns True. -/
def demoSpecC : ProviderSpec := ⟨3, "C", "mC", true, true, some "k", 3, .ok true, .ok demoResp⟩

/-- The provider instance `demoSpecB`'s constructor returns. -/
def demoProvB : Provider := ⟨2, "B", "mB", 2, .ok true, .ok demoResp⟩

/-- Demonstration config for a Claude-style provider that is enabled but has
no API key configured. -/
def demoSpecNoKey : ProviderSpec := ⟨7, "Claude", "claude-3", true, true, none, 3, .ok true, .ok demoResp⟩

/-! ### Helper lemmas -/

theorem str_foldl_append (l : List String) (x y : String) :
    List.foldl (fun r s => r ++ s) (x ++ y) l
      = x ++ List.foldl (fun r s => r ++ s) y l := by
  induction l generalizing y with
  | nil => rfl
  | cons a l ih =>
    simp only [List.foldl_cons]
    rw [String.append_assoc, ih]

theorem str_join_cons (a : String) (l : List String) :
    String.join (a :: l) = a ++ String.join l := by
  show List.foldl (fun r s => r ++ s) ("" ++ a) l
        = a ++ List.foldl (fun r s => r ++ s) "" l
  rw [String.empty_append, ← String.append_empty a, str_foldl_append,
    String.append_empty]

theorem claude_collect_go (msgs : List LLMMessage) (api0 : List LLMMessage)
    (sys0 : String) :
    msgs.foldl
      (fun acc m =>
        if m.role == "system" then (acc.1, acc.2 ++ m.content ++ "\n")
        else (acc.1 ++ [m], acc.2))
      (api0, sys0)
    = (api0 ++ msgs.filter (fun m => !(m.role == "system")),
       sys0 ++ String.join ((msgs.filter (fun m => m.role == "system")).map
          (fun m => m.content ++ "\n"))) := by
  induction msgs generalizing api0 sys0 with
  | nil => simp [show String.join [] = "" from rfl, String.append_empty]
  | cons m rest ih =>
    by_cases h : (m.role == "system") = true
    · simp only [List.foldl_cons, h, if_pos, List.filter_cons, Bool.not_true,
        List.map_cons, str_join_cons]
      rw [ih]
      simp [str_join_cons, String.append_assoc]
    · simp only [List.foldl_cons, h, if_neg, List.filter_cons,
        Bool.not_false, List.map_cons]
      rw [ih]
      simp [h, List.append_assoc]

theorem claude_collect_eq (msgs : List LLMMessage) :
    claude_collect msgs
      = (msgs.filter (fun m => !(m.role == "system")),
         String.join ((msgs.filter (fun m => m.role == "system")).map
            (fun m => m.content ++ "\n"))) := by
  have h := claude_collect_go msgs [] ""
  simpa [claude_collect] using h

/-! ### Claim theorems -/

/-- C8: for every message list passed to the Claude adapter's completion,
the system-role messages (the leading ones in particular) are concatenated
in order — each content followed by a newline — into the accumulated system
text that (stripped) becomes the single backend-specific `system` field;
no system-role message appears in the `messages` array sent to the backend;
and the relative order of the non-system messages is preserved (the array
is exactly the subsequence of non-system messages). -/
theorem claude_system_message_handling (model : String) (msgs : List LLMMessage) :
    (claude_build_request model msgs).messages
        = msgs.filter (fun m => !(m.role == "system"))
    ∧ (claude_collect msgs).2
        = String.join ((msgs.filter (fun m => m.role == "system")).map
            (fun m => m.content ++ "\n"))
    ∧ (claude_build_request model msgs).system
        = (if (claude_collect msgs).2.trim == "" then none
           else some (claude_collect msgs).2.trim) := by
  refine ⟨?_, (claude_collect_eq msgs).symm ▸ rfl, rfl⟩
  show (claude_collect msgs).1 = _
  rw [claude_collect_eq]

/-- C5 counterexample: a well-formed `404 Not Found` response (a 4xx that is
neither a network failure nor an auth rejection) makes the Claude and
SiliconFlow probes report unavailable, and the Ollama probe reports
unavailable even on a `400` bad request, contradicting the claim that every
well-formed 4xx counts as available. -/
theorem probe_4xx_refuted :
    claude_is_available (.status 404) = false
    ∧ siliconflow_is_available (.status 422) = false
    ∧ ollama_is_available (.status 400) = false
    ∧ (400 ≤ 404 ∧ 404 < 500 ∧ 404 ≠ 401 ∧ 404 ≠ 403) := by
  decide

/-- C5 amended: `is_available()` returns true exactly on an HTTP response
with status 200 or 400 for the Claude and SiliconFlow adapters, and exactly
on status 200 for the Ollama adapter; every other status, and any
network-level failure or timeout (modelled as `netFail`, covering the
`except` branch), counts as unavailable. -/
theorem probe_status_exact (o : ProbeOutcome) :
    (claude_is_available o = true ↔ (o = .status 200 ∨ o = .status 400))
    ∧ (siliconflow_is_available o = true ↔ (o = .status 200 ∨ o = .status 400))
    ∧ (ollama_is_available o = true ↔ o = .status 200) := by
  cases o <;>
    simp [claude_is_available, siliconflow_is_available, ollama_is_available]

/-- C10: whenever a provider is selected, `get_current_provider_info`
returns its name, its model and `available = True`, and the result is the
same whatever the outcome of an availability probe or a completion would be
(no live check is performed); with no provider selected it returns exactly
`{"name": "None", "available": False}`. -/
theorem current_provider_info_spec (st : RouterState) :
    (st.current = none → get_current_provider_info st = ⟨"None", none, false⟩)
    ∧ (∀ p, st.current = some p →
        get_current_provider_info st = ⟨p.name, some p.model, true⟩)
    ∧ (∀ p a c, st.current = some p →
        get_current_provider_info
            { st with current := some { p with availability := a, completion := c } }
          = ⟨p.name, some p.model, true⟩) := by
  refine ⟨fun h => ?_, fun p h => ?_, fun p a c h => ?_⟩ <;>
    simp [get_current_provider_info, h]

/-- C10 witness: the general statement applied to the concrete unselected
state and to a concrete selected state (whose provider is in fact marked
available-false), evaluating the info dictionaries. -/
theorem current_provider_info_spec_witness :
    (demoStNone.current = none
      ∧ get_current_provider_info demoStNone = ⟨"None", none, false⟩)
    ∧ (demoStOk.current = some demoP1
      ∧ get_current_provider_info demoStOk = ⟨"P1", some "m1", true⟩) :=
  ⟨⟨rfl, (current_provider_info_spec demoStNone).1 rfl⟩,
   ⟨rfl, (current_provider_info_spec demoStOk).2.1 demoP1 rfl⟩⟩

/-- C6: in both wire formats, when the `arguments` field of the invocation
is a string on which `json.loads` fails (a malformed JSON string), the
decoded argument map is empty; the decoder is a total function, so no
exception reaches the caller. -/
theorem malformed_args_decode_empty
    (loads : String → Option (List (String × String))) (s : String)
    (hbad : loads s = none) :
    (∀ (content : String) (cid : Option String) (nm : Option String)
        (rest : List RawToolCall) (fc0 : Option ToolFunction),
        detect_tool_call loads
            ⟨content, some (⟨cid, some ⟨nm, some (.str s)⟩⟩ :: rest), fc0⟩
          = some (nm, []))
    ∧ (∀ (content : String) (nm : Option String),
        detect_tool_call loads ⟨content, none, some ⟨nm, some (.str s)⟩⟩
          = some (nm, [])) := by
  constructor <;> intros <;> simp [detect_tool_call, parse_args, hbad]

/-- C6 witness: a `json.loads` that rejects the concrete string `"oops"`,
applied to a list-format and to a single-format invocation carrying that
string, both decoding to the empty argument map. -/
theorem malformed_args_decode_empty_witness :
    demoBadLoads "oops" = none
    ∧ detect_tool_call demoBadLoads
        ⟨"", some [⟨some "cid", some ⟨some "get_weather", some (.str "oops")⟩⟩],
          none⟩
        = some (some "get_weather", [])
    ∧ detect_tool_call demoBadLoads
        ⟨"", none, some ⟨some "get_weather", some (.str "oops")⟩⟩
        = some (some "get_weather", []) :=
  ⟨rfl,
   (malformed_args_decode_empty demoBadLoads "oops" rfl).1 "" (some "cid")
     (some "get_weather") [] none,
   (malformed_args_decode_empty demoBadLoads "oops" rfl).2 "" (some "get_weather")⟩

/-- C7: an assistant message carrying a non-empty `tool_calls` list whose
first entry has call identifier `cid` gets its tool result re-emitted as a
`role: "tool"` follow-up message carrying that same `tool_call_id`, while a
single-invocation (`function_call`) message gets a `role: "function"`
follow-up message, a shape with no call-identifier field. -/
theorem followup_format_roundtrip :
    (∀ (msg : AssistantMessage) (tc : RawToolCall) (rest : List RawToolCall)
        (cid fname resultJson : String),
        msg.tool_calls = some (tc :: rest) → tc.id = some cid →
        build_followup msg fname resultJson
          = .ok (.toolMsg (some cid) fname resultJson))
    ∧ (∀ (msg : AssistantMessage) (fc : ToolFunction) (fname resultJson : String),
        msg.tool_calls = none → msg.function_call = some fc →
        build_followup msg fname resultJson
          = .ok (.functionMsg fname resultJson)) := by
  constructor
  · intro msg tc rest cid fname rj h1 h2
    simp [build_followup, h1, h2]
  · intro msg fc fname rj h1 _
    simp [build_followup, h1]

/-- C7 witness: the round-trip applied to a concrete Format-B message with
call identifier `"cid"` and to a concrete single-invocation message. -/
theorem followup_format_roundtrip_witness :
    build_followup
        ⟨"", some [⟨some "cid", some ⟨some "get_weather", some (.str "oops")⟩⟩],
          none⟩
        "get_weather" "res"
      = .ok (.toolMsg (some "cid") "get_weather" "res")
    ∧ build_followup
        ⟨"", none, some ⟨some "get_weather", some (.str "oops")⟩⟩
        "get_weather" "res"
      = .ok (.functionMsg "get_weather" "res") :=
  ⟨followup_format_roundtrip.1 _
      ⟨some "cid", some ⟨some "get_weather", some (.str "oops")⟩⟩ [] "cid"
      "get_weather" "res" rfl rfl,
   followup_format_roundtrip.2 _
      ⟨some "get_weather", some (.str "oops")⟩ "get_weather" "res" rfl rfl⟩

/-! ### Initialization helpers -/

theorem select_fst_eq_find (ps : List Provider) :
    (select_provider_trace ps).1 = ps.find? is_avail := by
  induction ps with
  | nil => rfl
  | cons p rest ih =>
    cases h : p.availability with
    | raises =>
      rw [List.find?_cons_of_neg _ (by simp [is_avail, h])]
      simpa [select_provider_trace, h] using ih
    | ok b =>
      cases b with
      | false =>
        rw [List.find?_cons_of_neg _ (by simp [is_avail, h])]
        simpa [select_provider_trace, h] using ih
      | true =>
        rw [List.find?_cons_of_pos _ (by simp [is_avail, h])]
        simp [select_provider_trace, h]

theorem select_trace_none (ps : List Provider)
    (h : ps.find? is_avail = none) :
    (select_provider_trace ps).2 = ps.map Provider.pid := by
  induction ps with
  | nil => rfl
  | cons p rest ih =>
    have hp : ¬ is_avail p = true := by
      intro hav
      rw [List.find?_cons_of_pos _ hav] at h
      exact Option.noConfusion h
    have hrest : rest.find? is_avail = none := by
      rwa [List.find?_cons_of_neg _ hp] at h
    have hform : p.availability ≠ .ok true := by
      intro hav; exact hp (by simp [is_avail, hav])
    cases hav : p.availability with
    | raises => simp [select_provider_trace, hav, ih hrest]
    | ok b =>
      cases b with
      | false => simp [select_provider_trace, hav, ih hrest]
      | true => exact absurd hav hform

theorem select_trace_some (ps : List Provider) (p : Provider)
    (h : ps.find? is_avail = some p) :
    (select_provider_trace ps).2
      = (ps.takeWhile (fun q => !(is_avail q))).map Provider.pid ++ [p.pid] := by
  induction ps with
  | nil => exact Option.noConfusion h
  | cons a rest ih =>
    by_cases ha : is_avail a = true
    · rw [List.find?_cons_of_pos _ ha] at h
      obtain rfl : a = p := Option.some_injective _ h
      have hav : a.availability = .ok true := by
        have := ha; simpa [is_avail] using this
      simp [select_provider_trace, hav, List.takeWhile_cons, ha]
    · rw [List.find?_cons_of_neg _ ha] at h
      have hform : a.availability ≠ .ok true := by
        intro hav; exact ha (by simp [is_avail, hav])
      have hstep := ih h
      cases hav : a.availability with
      | raises =>
        simp [select_provider_trace, hav, hstep, List.takeWhile_cons,
          Bool.not_eq_true _ ▸ ha, ha]
      | ok b =>
        cases b with
        | false =>
          simp [select_provider_trace, hav, hstep, List.takeWhile_cons, ha]
        | true => exact absurd hav hform

/-! ### Initialization claim theorems -/

/-- C3: at router initialization the enabled, successfully-constructed
providers are sorted ascending by priority; the probe walk follows that
order, the selected current provider is the first one whose probe returns
`True` (`find?`), the pids probed are exactly the unavailable prefix plus
the selected provider — so nothing after the first available provider is
probed — and when no probe returns `True` every provider is probed. -/
theorem init_selection_spec (specs : List ProviderSpec) :
    List.Sorted priorityLE (router_init specs).1.providers
    ∧ (router_init specs).1.current
        = (router_init specs).1.providers.find? is_avail
    ∧ (∀ p, (router_init specs).1.providers.find? is_avail = some p →
        (router_init specs).2
          = ((router_init specs).1.providers.takeWhile
              (fun q => !(is_avail q))).map Provider.pid ++ [p.pid])
    ∧ ((router_init specs).1.providers.find? is_avail = none →
        (router_init specs).2 = (router_init specs).1.providers.map Provider.pid) := by
  refine ⟨?_, ?_, fun p h => ?_, fun h => ?_⟩
  · exact List.sorted_insertionSort priorityLE _
  · exact select_fst_eq_find _
  · exact select_trace_some _ p h
  · exact select_trace_none _ h

/-- C3 witness: the claim's own scenario — A (priority 1, unavailable),
B (priority 2, available), C (priority 3, available): B is selected and C is
never probed (the probe trace is exactly `[A, B]`). -/
theorem init_selection_spec_witness :
    (router_init [demoSpecA, demoSpecB, demoSpecC]).1.current = some demoProvB
    ∧ (router_init [demoSpecA, demoSpecB, demoSpecC]).2 = [1, 2]
    ∧ (3 : Nat) ∉ (router_init [demoSpecA, demoSpecB, demoSpecC]).2 := by
  have h := init_selection_spec [demoSpecA, demoSpecB, demoSpecC]
  refine ⟨?_, ?_, ?_⟩
  · rw [h.2.1]; decide
  · rw [h.2.2.1 demoProvB (by decide)]; decide
  · rw [h.2.2.1 demoProvB (by decide)]; decide

/-- C9 counterexample: a Claude-style config that is enabled but has no
`api_key` makes the provider constructor raise
`ValueError("Claude API key is required")`, yet router construction
completes normally — it returns the fully-built (empty) router rather than
propagating the error, so the condition is not fatal at startup. -/
theorem missing_key_not_fatal :
    init_provider demoSpecNoKey = .error "Claude API key is required"
    ∧ router_init [demoSpecNoKey] = (⟨[], none⟩, []) :=
  ⟨rfl, rfl⟩

/-- C9 amended: an enabled backend whose required credential is absent makes
its provider constructor raise, but the router catches the exception during
`_initialize_providers`, skips that provider (no provider with its pid
appears in the router), and startup completes — the misconfiguration is
silently tolerated, not fatal. -/
theorem missing_key_skipped (specs : List ProviderSpec) (s : ProviderSpec)
    (hmem : s ∈ specs) (hen : s.enabled = true)
    (hreq : s.requires_api_key = true) (hkey : s.api_key = none)
    (hnodup : (specs.map ProviderSpec.pid).Nodup) :
    init_provider s = .error (s.name ++ " API key is required")
    ∧ ∀ p ∈ (router_init specs).1.providers, p.pid ≠ s.pid := by
  have herr : init_provider s = .error (s.name ++ " API key is required") := by
    simp [init_provider, hreq, hkey]
  refine ⟨herr, fun p hp hpid => ?_⟩
  have hperm := List.perm_insertionSort priorityLE
    (specs.filterMap (fun t =>
      if !t.enabled then none
      else
        match init_provider t with
        | .ok q => some q
        | .error _ => none))
  have hp' : p ∈ specs.filterMap (fun t =>
      if !t.enabled then none
      else
        match init_provider t with
        | .ok q => some q
        | .error _ => none) := hperm.mem_iff.1 hp
  rcases List.mem_filterMap.1 hp' with ⟨t, htmem, hft⟩
  have hten : t.enabled = true := by
    by_contra hten
    have : t.enabled = false := Bool.eq_false_iff.2 hten
    simp [this] at hft
  rcases hit : init_provider t with e | q
  · rw [hten, hit] at hft; simp at hft
  · rw [hten, hit] at hft
    simp only [Bool.not_true, Bool.false_eq_true, if_false, Option.some.injEq] at hft
    have hqpid : q.pid = t.pid := by
      by_cases hc : (t.requires_api_key && t.api_key.isNone) = true
      · simp [init_provider, hc] at hit
      · simp [init_provider, hc] at hit
        rw [← hit]
    have hts : t = s := by
      refine List.inj_on_of_nodup_map hnodup htmem hmem ?_
      rw [← hqpid, hft, hpid]
    rw [hts, herr] at hit
    exact Except.noConfusion hit

/-- C9 witness: the amended statement applied to a two-entry configuration
in which the keyless Claude-style entry (pid 7) is skipped while the healthy
entry survives. -/
theorem missing_key_skipped_witness :
    (demoSpecNoKey ∈ [demoSpecNoKey, demoSpecB]
      ∧ demoSpecNoKey.enabled = true
      ∧ demoSpecNoKey.requires_api_key = true
      ∧ demoSpecNoKey.api_key = none
      ∧ ([demoSpecNoKey, demoSpecB].map ProviderSpec.pid).Nodup)
    ∧ (init_provider demoSpecNoKey = .error "Claude API key is required"
      ∧ ∀ p ∈ (router_init [demoSpecNoKey, demoSpecB]).1.providers,
          p.pid ≠ demoSpecNoKey.pid) :=
  ⟨⟨by decide, rfl, rfl, rfl, by decide⟩,
   missing_key_skipped [demoSpecNoKey, demoSpecB] demoSpecNoKey (by decide)
     rfl rfl rfl (by decide)⟩

/-- C4 amended: when no provider's probe succeeds at initialization the
router remains unselected (`current_provider is None`), and
`get_current_provider_info` reports the distinguishable
`{"name": "None", "available": False}` record; but a `chat_completion` call
on an unselected router raises the "no available provider" exception
immediately — performing no probe and no completion attempt and leaving the
state unchanged — so the router never transitions to a selected provider
via a completion call, even when an available provider exists. -/
theorem unselected_router_behavior :
    (∀ specs : List ProviderSpec,
        (∀ p ∈ initialize_providers specs, is_avail p = false) →
        (router_init specs).1.current = none)
    ∧ (∀ st : RouterState, st.current = none →
        get_current_provider_info st = ⟨"None", none, false⟩
        ∧ chat_completion st = (.noProvider, [], st)) := by
  constructor
  · intro specs hall
    have hnone : (initialize_providers specs).find? is_avail = none :=
      List.find?_eq_none.2 (fun x hx => by simp [hall x hx])
    calc (router_init specs).1.current
        = (select_provider_trace (initialize_providers specs)).1 := rfl
      _ = none := by rw [select_fst_eq_find, hnone]
  · intro st h
    exact ⟨by simp [get_current_provider_info, h], by simp [chat_completion, h]⟩

/-- C4 counterexample: a state whose provider list holds an available
provider but whose `current_provider` is `None` (the claim's "some provider
later becomes available"): the completion call raises the "no provider"
exception on first use and the state is unchanged — `current_provider` stays
`None` instead of transitioning to the available provider. -/
theorem unselected_no_transition_refuted :
    demoStNone.current = none
    ∧ demoP2 ∈ demoStNone.providers
    ∧ is_avail demoP2 = true
    ∧ chat_completion demoStNone = (.noProvider, [], demoStNone) := by
  decide

/-- C4 witness: the amended statement applied to a configuration whose only
probe returns `False` (router stays unselected) and to the concrete
unselected state (raise on use, unchanged state). -/
theorem unselected_router_behavior_witness :
    (router_init [demoSpecA]).1.current = none
    ∧ (get_current_provider_info demoStNone = ⟨"None", none, false⟩
      ∧ chat_completion demoStNone = (.noProvider, [], demoStNone)) :=
  ⟨unselected_router_behavior.1 [demoSpecA] (by decide),
   unselected_router_behavior.2 demoStNone rfl⟩

/-! ### Failover helpers -/

/-- The fallback candidates of one failover pass: the providers of the list
other than the one that just failed (the loop's
`if provider == self.current_provider: continue`), in list order. -/
def fallback_candidates (ps : List Provider) (cur : Provider) : List Provider :=
  ps.filter (fun p => !(p.pid == cur.pid))

/-- Whether a completion outcome is a raised exception. -/
def comp_fails : CompResult → Bool
  | .raises _ => true
  | .ok _ => false

theorem failover_loop_spec (cur : Provider) (e : String) (st : RouterState)
    (ℓ : List Provider) :
    (∃ k, probePids (failover_loop cur e st ℓ).2.1
        = ((fallback_candidates ℓ cur).map Provider.pid).take k)
    ∧ (callPids (failover_loop cur e st ℓ).2.1).Sublist
        ((fallback_candidates ℓ cur).map Provider.pid)
    ∧ (∀ p, (fallback_candidates ℓ cur).find? is_avail = some p →
        RouterEv.call p.pid ∈ (failover_loop cur e st ℓ).2.1)
    ∧ (∀ resp, (failover_loop cur e st ℓ).1 = .success resp →
        ∃ p, (failover_loop cur e st ℓ).2.2 = { st with current := some p }
          ∧ p ∈ fallback_candidates ℓ cur
          ∧ p.availability = .ok true ∧ p.completion = .ok resp)
    ∧ (failover_loop cur e st ℓ).2.2.providers = st.providers := by
  induction ℓ with
  | nil =>
    refine ⟨⟨0, rfl⟩, List.nil_sublist _, fun p h => ?_, fun resp h => ?_, rfl⟩
    · exact Option.noConfusion h
    · exact CallOutcome.noConfusion h
  | cons q rest ih =>
    by_cases hq : q.pid = cur.pid
    · have hcand : fallback_candidates (q :: rest) cur = fallback_candidates rest cur := by
        simp [fallback_candidates, List.filter_cons, hq]
      have hloop : failover_loop cur e st (q :: rest) = failover_loop cur e st rest := by
        simp [failover_loop, hq]
      rw [hcand, hloop]
      exact ih
    · have hcand : fallback_candidates (q :: rest) cur = q :: fallback_candidates rest cur := by
        simp [fallback_candidates, List.filter_cons, hq]
      rw [hcand]
      cases hav : q.availability with
      | ok b =>
        cases b with
        | true =>
          cases hcomp : q.completion with
          | ok resp0 =>
            have hloop : failover_loop cur e st (q :: rest)
                = (.success resp0, [.probe q.pid, .call q.pid],
                   { st with current := some q }) := by
              simp [failover_loop, hq, hav, hcomp]
            rw [hloop]
            refine ⟨⟨1, rfl⟩, ?_, fun p h => ?_, fun resp h => ?_, rfl⟩
            · show [q.pid].Sublist (q.pid :: _)
              exact (List.nil_sublist _).cons₂ q.pid
            · have hp : p = q := by
                have := List.find?_cons_of_pos (p := is_avail) (a := q)
                  (fallback_candidates rest cur) (by simp [is_avail, hav])
                rw [this] at h
                exact (Option.some_injective _ h).symm
              subst hp
              simp [callPids, probePids]
            · have hr : resp = resp0 := by
                cases h; rfl
              subst hr
              exact ⟨q, rfl, List.mem_cons_self _ _, hav, hcomp⟩
          | raises e0 =>
            have hloop : failover_loop cur e st (q :: rest)
                = ((failover_loop cur e st rest).1,
                   .probe q.pid :: .call q.pid :: (failover_loop cur e st rest).2.1,
                   (failover_loop cur e st rest).2.2) := by
              simp [failover_loop, hq, hav, hcomp]
            rw [hloop]
            obtain ⟨⟨k, hk⟩, hsub, hfind, hsucc, hprov⟩ := ih
            refine ⟨⟨k + 1, ?_⟩, ?_, fun p h => ?_, fun resp h => ?_, hprov⟩
            · show q.pid :: probePids (failover_loop cur e st rest).2.1 = _
              rw [hk]; rfl
            · show q.pid :: callPids (failover_loop cur e st rest).2.1
                |>.Sublist (q.pid :: _)
              exact hsub.cons₂ q.pid
            · have hp : p = q := by
                have := List.find?_cons_of_pos (p := is_avail) (a := q)
                  (fallback_candidates rest cur) (by simp [is_avail, hav])
                rw [this] at h
                exact (Option.some_injective _ h).symm
              subst hp
              simp
            · obtain ⟨p, hst, hmem, hav', hcomp'⟩ := hsucc resp h
              exact ⟨p, hst, List.mem_cons_of_mem _ hmem, hav', hcomp'⟩
        | false =>
          have hloop : failover_loop cur e st (q :: rest)
              = ((failover_loop cur e st rest).1,
                 .probe q.pid :: (failover_loop cur e st rest).2.1,
                 (failover_loop cur e st rest).2.2) := by
            simp [failover_loop, hq, hav]
          rw [hloop]
          obtain ⟨⟨k, hk⟩, hsub, hfind, hsucc, hprov⟩ := ih
          refine ⟨⟨k + 1, ?_⟩, ?_, fun p h => ?_, fun resp h => ?_, hprov⟩
          · show q.pid :: probePids (failover_loop cur e st rest).2.1 = _
            rw [hk]; rfl
          · exact hsub.cons q.pid
          · have hfs : (q :: fallback_candidates rest cur).find? is_avail
                = (fallback_candidates rest cur).find? is_avail :=
              List.find?_cons_of_neg _ (by simp [is_avail, hav])
            rw [hfs] at h
            exact List.mem_cons_of_mem _ (hfind p h)
          · obtain ⟨p, hst, hmem, hav', hcomp'⟩ := hsucc resp h
            exact ⟨p, hst, List.mem_cons_of_mem _ hmem, hav', hcomp'⟩
      | raises =>
        have hloop : failover_loop cur e st (q :: rest)
            = ((failover_loop cur e st rest).1,
               .probe q.pid :: (failover_loop cur e st rest).2.1,
               (failover_loop cur e st rest).2.2) := by
          simp [failover_loop, hq, hav]
        rw [hloop]
        obtain ⟨⟨k, hk⟩, hsub, hfind, hsucc, hprov⟩ := ih
        refine ⟨⟨k + 1, ?_⟩, ?_, fun p h => ?_, fun resp h => ?_, hprov⟩
        · show q.pid :: probePids (failover_loop cur e st rest).2.1 = _
          rw [hk]; rfl
        · exact hsub.cons q.pid
        · have hfs : (q :: fallback_candidates rest cur).find? is_avail
              = (fallback_candidates rest cur).find? is_avail :=
            List.find?_cons_of_neg _ (by simp [is_avail, hav])
          rw [hfs] at h
          exact List.mem_cons_of_mem _ (hfind p h)
        · obtain ⟨p, hst, hmem, hav', hcomp'⟩ := hsucc resp h
          exact ⟨p, hst, List.mem_cons_of_mem _ hmem, hav', hcomp'⟩

theorem failover_loop_allfail (cur : Provider) (e : String) (st : RouterState)
    (ℓ : List Provider)
    (h : ∀ p ∈ ℓ, p.pid ≠ cur.pid → is_avail p = true →
        comp_fails p.completion = true) :
    (failover_loop cur e st ℓ).1 = .allFailed [e]
    ∧ (failover_loop cur e st ℓ).2.2 = st := by
  induction ℓ with
  | nil => exact ⟨rfl, rfl⟩
  | cons q rest ih =>
    have hrest : ∀ p ∈ rest, p.pid ≠ cur.pid → is_avail p = true →
        comp_fails p.completion = true :=
      fun p hp => h p (List.mem_cons_of_mem _ hp)
    by_cases hq : q.pid = cur.pid
    · have hloop : failover_loop cur e st (q :: rest) = failover_loop cur e st rest := by
        simp [failover_loop, hq]
      rw [hloop]
      exact ih hrest
    · cases hav : q.availability with
      | ok b =>
        cases b with
        | true =>
          have hcf := h q (List.mem_cons_self _ _) hq (by simp [is_avail, hav])
          cases hcomp : q.completion with
          | ok r =>
            rw [hcomp] at hcf
            simp [comp_fails] at hcf
          | raises e0 =>
            have hloop : failover_loop cur e st (q :: rest)
                = ((failover_loop cur e st rest).1,
                   .probe q.pid :: .call q.pid :: (failover_loop cur e st rest).2.1,
                   (failover_loop cur e st rest).2.2) := by
              simp [failover_loop, hq, hav, hcomp]
            rw [hloop]
            exact ⟨(ih hrest).1, (ih hrest).2⟩
        | false =>
          have hloop : failover_loop cur e st (q :: rest)
              = ((failover_loop cur e st rest).1,
                 .probe q.pid :: (failover_loop cur e st rest).2.1,
                 (failover_loop cur e st rest).2.2) := by
            simp [failover_loop, hq, hav]
          rw [hloop]
          exact ⟨(ih hrest).1, (ih hrest).2⟩
      | raises =>
        have hloop : failover_loop cur e st (q :: rest)
            = ((failover_loop cur e st rest).1,
               .probe q.pid :: (failover_loop cur e st rest).2.1,
               (failover_loop cur e st rest).2.2) := by
          simp [failover_loop, hq, hav]
        rw [hloop]
        exact ⟨(ih hrest).1, (ih hrest).2⟩

/-! ### Failover claim theorems -/

/-- C1: when the current provider's completion raises, the call first (and
only once, at the head of the trace) attempts the current provider; every
completion attempt in the whole call targets a distinct provider (no
provider is attempted twice); the failed provider is never probed; the
fallback candidates — the providers other than the failed one, kept in the
router's priority-ascending order — are probed with `is_available()` along
an initial segment of that order; the first candidate whose probe returns
`True` gets the completion call; and on a fallback success the router's
`current_provider` is updated to that fallback provider (so a subsequent
call starts there), the provider list being unchanged. -/
theorem chat_completion_failover (st : RouterState) (cur : Provider) (e : String)
    (hcur : st.current = some cur) (hfail : cur.completion = .raises e)
    (hnodup : (st.providers.map Provider.pid).Nodup)
    (hsorted : List.Sorted priorityLE st.providers) :
    (chat_completion st).2.1.head? = some (.call cur.pid)
    ∧ (callPids (chat_completion st).2.1).Nodup
    ∧ cur.pid ∉ probePids (chat_completion st).2.1
    ∧ List.Sorted priorityLE (fallback_candidates st.providers cur)
    ∧ (∃ k, probePids (chat_completion st).2.1
        = ((fallback_candidates st.providers cur).map Provider.pid).take k)
    ∧ (∀ p, (fallback_candidates st.providers cur).find? is_avail = some p →
        RouterEv.call p.pid ∈ (chat_completion st).2.1)
    ∧ (∀ resp, (chat_completion st).1 = .success resp →
        ∃ p, (chat_completion st).2.2 = { st with current := some p }
          ∧ p ∈ st.providers ∧ p.pid ≠ cur.pid
          ∧ p.availability = .ok true ∧ p.completion = .ok resp) := by
  have h1 : (chat_completion st).1 = (failover_loop cur e st st.providers).1 := by
    simp [chat_completion, hcur, hfail]
  have h2 : (chat_completion st).2.1
      = .call cur.pid :: (failover_loop cur e st st.providers).2.1 := by
    simp [chat_completion, hcur, hfail]
  have h3 : (chat_completion st).2.2 = (failover_loop cur e st st.providers).2.2 := by
    simp [chat_completion, hcur, hfail]
  obtain ⟨⟨k, hk⟩, hsub, hfind, hsucc, -⟩ := failover_loop_spec cur e st st.providers
  have hremsub : ((fallback_candidates st.providers cur).map Provider.pid).Sublist
      (st.providers.map Provider.pid) :=
    (List.filter_sublist st.providers).map Provider.pid
  have hremnodup : ((fallback_candidates st.providers cur).map Provider.pid).Nodup :=
    hremsub.nodup hnodup
  have hnotcur : ∀ x ∈ (fallback_candidates st.providers cur).map Provider.pid,
      x ≠ cur.pid := by
    intro x hx
    rcases List.mem_map.1 hx with ⟨q, hq, rfl⟩
    rcases List.mem_filter.1 hq with ⟨-, hq2⟩
    simpa using hq2
  refine ⟨?_, ?_, ?_, ?_, ?_, ?_, ?_⟩
  · rw [h2]; rfl
  · rw [h2]
    show (cur.pid :: callPids (failover_loop cur e st st.providers).2.1).Nodup
    refine List.nodup_cons.2 ⟨fun hmem => ?_, hsub.nodup hremnodup⟩
    exact hnotcur cur.pid (hsub.mem hmem) rfl
  · rw [h2]
    show cur.pid ∉ probePids (failover_loop cur e st st.providers).2.1
    intro hmem
    rw [hk] at hmem
    exact hnotcur cur.pid (List.take_subset _ _ hmem) rfl
  · exact hsorted.filter _
  · rw [h2]
    exact ⟨k, hk⟩
  · intro p hp
    rw [h2]
    exact List.mem_cons_of_mem _ (hfind p hp)
  · intro resp hresp
    rw [h1] at hresp
    obtain ⟨p, hst, hmem, hav, hcomp⟩ := hsucc resp hresp
    rcases List.mem_filter.1 hmem with ⟨hmem', hp2⟩
    refine ⟨p, ?_, hmem', by simpa using hp2, hav, hcomp⟩
    rw [h3]
    exact hst

/-- C1 witness: the failover theorem applied to a concrete two-provider
state whose current provider raises and whose fallback succeeds: the trace
attempts no provider twice, the fallback's completion is called, and the
state after the call has the fallback as current provider. -/
theorem chat_completion_failover_witness :
    (demoStOk.current = some demoP1
      ∧ demoP1.completion = .raises "boom1"
      ∧ (demoStOk.providers.map Provider.pid).Nodup
      ∧ List.Sorted priorityLE demoStOk.providers)
    ∧ (callPids (chat_completion demoStOk).2.1).Nodup
    ∧ RouterEv.call demoP2.pid ∈ (chat_completion demoStOk).2.1
    ∧ (chat_completion demoStOk).2.2 = { demoStOk with current := some demoP2 } := by
  have h := chat_completion_failover demoStOk demoP1 "boom1" rfl rfl
    (by decide) (by decide)
  exact ⟨⟨rfl, rfl, by decide, by decide⟩, h.2.1,
    h.2.2.2.2.2.1 demoP2 (by decide), by decide⟩

/-- C2 counterexample: with current provider 1 raising `"boom1"` and the
only fallback (provider 2) available but raising `"boom2"`, both providers
are attempted (completion-call trace `[1, 2]`) yet the raised aggregate
carries only `["boom1"]` — not one underlying error per attempted provider,
and `"boom2"` is missing. -/
theorem aggregate_error_refuted :
    (chat_completion demoStBad).1 = .allFailed ["boom1"]
    ∧ callPids (chat_completion demoStBad).2.1 = [1, 2]
    ∧ demoP2bad.completion = .raises "boom2"
    ∧ "boom2" ∉ (["boom1"] : List String)
    ∧ (["boom1"] : List String).length ≠ 2 := by
  decide

/-- C2 amended: when the current provider's completion raises `e` and no
other provider both reports available and completes successfully, the
router raises an error that embeds only `e`, the current (first-attempted)
provider's underlying error — fallback providers' errors are logged but not
collected — and the router state is unchanged. -/
theorem chat_completion_allfail (st : RouterState) (cur : Provider) (e : String)
    (hcur : st.current = some cur) (hfail : cur.completion = .raises e)
    (hall : ∀ p ∈ st.providers, p.pid ≠ cur.pid → is_avail p = true →
        comp_fails p.completion = true) :
    (chat_completion st).1 = .allFailed [e]
    ∧ (chat_completion st).2.2 = st := by
  have h := failover_loop_allfail cur e st st.providers hall
  constructor
  · have h1 : (chat_completion st).1 = (failover_loop cur e st st.providers).1 := by
      simp [chat_completion, hcur, hfail]
    rw [h1]
    exact h.1
  · have h3 : (chat_completion st).2.2 = (failover_loop cur e st st.providers).2.2 := by
      simp [chat_completion, hcur, hfail]
    rw [h3]
    exact h.2

/-- C2 witness: the amended statement applied to the concrete state in which
provider 1 (current) raises `"boom1"` and provider 2 raises `"boom2"`. -/
theorem chat_completion_allfail_witness :
    (demoStBad.current = some demoP1
      ∧ demoP1.completion = .raises "boom1"
      ∧ (∀ p ∈ demoStBad.providers, p.pid ≠ demoP1.pid → is_avail p = true →
          comp_fails p.completion = true))
    ∧ (chat_completion demoStBad).1 = .allFailed ["boom1"]
    ∧ (chat_completion demoStBad).2.2 = demoStBad :=
  ⟨⟨rfl, rfl, by decide⟩,
   chat_completion_allfail demoStBad demoP1 "boom1" rfl rfl (by decide)⟩

end EmoBot
